import Mathlib

/-!
Shallow embedding of `src/tgmusic.py` (Telegram music copier), covering the
classifier `is_audio_message`, the relay operation `handle_message`, the
durable stores (`progress.json` / `seen.json`, modelled as a checkpoint map
and a persisted seen list), the command surface `commands`, the backfill
loop `backfill`, and the top-level supervisor policy, together with
theorems settling the specification claims C1-C10.

Modelling conventions: Python integers are `Nat`/`Int`; the JSON progress
file is a total map `Int → Nat` (absent key ⇒ 0, as in `load_progress`);
the in-memory `seen_ids` set and the persisted `seen.json` list are
`List Nat` with set-insert semantics; each call to the Telegram client's
`forward_messages` is driven by an oracle `DeliveryOutcome` describing
whether the attempt succeeds, raises `FloodWaitError` (together with the
operator's y/n answer to the blocking prompt), or raises another exception.
`sys.exit(0)` is modelled by an `exited` flag on the result (the
`SystemExit` it raises is not an `Exception` subclass, so the supervisor's
`except Exception` does not catch it and the process terminates with
status 0).
-/

namespace TGMusic

/-- Document payload attached to a message: Telethon's `Document` with its
content-unique `id`, declared `mime_type` and `file_name`; an absent
attribute is the empty string, mirroring `getattr(doc, "mime_type", "") or ""`
in the source. -/
structure Document where
  id : Nat
  mime_type : String
  file_name : String
  deriving DecidableEq

/-- A message: numeric id, channel of origin (`chat_id`), whether it is a
voice note (`message.voice` truthy), whether it is tagged as audio
(`message.audio` truthy), and the attached document — present exactly when
`message.media` is a `MessageMediaDocument`, in which case Telethon's
`message.document` and `message.media.document` coincide. -/
structure Message where
  id : Nat
  chat_id : Int
  voice : Bool
  audio : Bool
  document : Option Document
  deriving DecidableEq

/-- Python's `str.lower()`, character by character (ASCII case folding;
the audio extensions compared against are all ASCII). -/
def py_lower (t : String) : String :=
  String.mk (t.data.map Char.toLower)

/-- Python's `str.startswith(pre)`. -/
def py_startswith (t pre : String) : Bool :=
  pre.data.isPrefixOf t.data

/-- Python's `str.endswith(suf)`. -/
def py_endswith (t suf : String) : Bool :=
  suf.data.isSuffixOf t.data

/-- Python's `str.strip()`: drop leading and trailing whitespace. -/
def py_strip (t : String) : String :=
  String.mk (((t.data.dropWhile Char.isWhitespace).reverse.dropWhile
    Char.isWhitespace).reverse)

/-- Audio file extensions accepted by the classifier (source line 119). -/
def audio_exts : List String :=
  [".mp3", ".m4a", ".flac", ".ogg", ".wav", ".aac", ".amr"]

/-- Embedding of `is_audio_message` (source lines 106-121): `None` and voice
messages are rejected, tagged audio is accepted, otherwise the attached
document is inspected — accept when its mime type starts with `audio/`, or
when its lower-cased file name ends with one of `audio_exts`. -/
def is_audio_message : Option Message → Bool
  | none => false
  | some m =>
    if m.voice then false
    else if m.audio then true
    else
      match m.document with
      | some doc =>
        if py_startswith doc.mime_type "audio/" then true
        else if audio_exts.any (fun ext => py_endswith (py_lower doc.file_name) ext) then true
        else false
      | none => false

/-- Program state: the in-memory flow state (`paused`, `forwarded_count`,
`seen_ids`) and the two persisted stores — `progressFile` models
`progress.json` as channel id ↦ last saved id (0 when absent) and
`seenFile` models `seen.json`. -/
structure St where
  paused : Bool
  forwarded_count : Nat
  seen_ids : List Nat
  progressFile : Int → Nat
  seenFile : List Nat

/-- Embedding of `load_progress` (source lines 56-64): read the channel's
`last_id` from the progress file, 0 when absent. -/
def load_progress (pf : Int → Nat) (channel_id : Int) : Nat :=
  pf channel_id

/-- Embedding of `save_progress` (source lines 66-79): write
`last_id` under the channel's key, leaving every other key unchanged. -/
def save_progress (pf : Int → Nat) (channel_id : Int) (last_id : Nat) : Int → Nat :=
  fun c => if c = channel_id then last_id else pf c

/-- Oracle for one attempt of `client.forward_messages`: success, a
`FloodWaitError` carrying the mandated wait and the operator's answer to
the blocking y/n prompt, or any other exception. -/
inductive DeliveryOutcome where
  | ok : DeliveryOutcome
  | floodWait (seconds : Nat) (operatorWaits : Bool) : DeliveryOutcome
  | otherError : DeliveryOutcome
  deriving DecidableEq

/-- Result of one `handle_message` call: the state after the call, the ids
of messages successfully forwarded during the call, and whether the call
terminated the process via `sys.exit(0)`. -/
structure HOut where
  st : St
  delivered : List Nat
  exited : Bool

/-- Content-unique id of a message (source lines 130-132): Telethon's
document id when `msg.media` carries a document, else `None`. -/
def uniqueIdOf (m : Message) : Option Nat :=
  m.document.map Document.id

/-- Python truthiness of `if unique_id and unique_id in seen_ids`
(source line 134): the id must be present, non-zero and already seen. -/
def dupSeen (uid : Option Nat) (seen : List Nat) : Bool :=
  match uid with
  | none => false
  | some u => (u != 0) && seen.contains u

/-- Python `if unique_id: seen_ids.add(unique_id)` (source lines 144-145):
add the id to the in-memory seen set when it is present and non-zero. -/
def addSeen (uid : Option Nat) (seen : List Nat) : List Nat :=
  match uid with
  | none => seen
  | some u => if u != 0 then seen.insert u else seen

/-- Embedding of the `while True` delivery loop of `handle_message`
(source lines 138-169), consuming one oracle entry per `forward_messages`
attempt. Success increments the counter, marks the id seen, and — on a
batch boundary — saves progress and seen to disk; an accepted flood wait
sleeps and retries the same message; a declined flood wait saves both
stores and exits via `sys.exit(0)`; any other error logs and abandons the
item. An exhausted oracle (`[]`) means the loop would keep retrying, and
is modelled as `none`. -/
def deliveryLoop (save_every : Nat) (msg : Message) (uid : Option Nat) (s : St) :
    List DeliveryOutcome → Option HOut
  | [] => none
  | DeliveryOutcome.ok :: _ =>
    let fc := s.forwarded_count + 1
    let seen := addSeen uid s.seen_ids
    if fc % save_every == 0 then
      some ⟨{ s with
              forwarded_count := fc
              seen_ids := seen
              progressFile := save_progress s.progressFile msg.chat_id msg.id
              seenFile := seen }, [msg.id], false⟩
    else
      some ⟨{ s with forwarded_count := fc, seen_ids := seen }, [msg.id], false⟩
  | DeliveryOutcome.floodWait _ true :: rest => deliveryLoop save_every msg uid s rest
  | DeliveryOutcome.floodWait _ false :: _ =>
    some ⟨{ s with
            progressFile := save_progress s.progressFile msg.chat_id msg.id
            seenFile := s.seen_ids }, [], true⟩
  | DeliveryOutcome.otherError :: _ => some ⟨s, [], false⟩

/-- Embedding of `handle_message` (source lines 123-169): return untouched
when paused, when the classifier rejects, or when the content-unique id is
truthy and already seen; otherwise run the delivery loop. -/
def handle_message (save_every : Nat) (s : St) (msg : Message)
    (os : List DeliveryOutcome) : Option HOut :=
  if s.paused then some ⟨s, [], false⟩
  else if !(is_audio_message (some msg)) then some ⟨s, [], false⟩
  else if dupSeen (uniqueIdOf msg) s.seen_ids then some ⟨s, [], false⟩
  else deliveryLoop save_every msg (uniqueIdOf msg) s os

/-- An incoming event on the command surface: the sender's identity, the
chat the command arrived in, and its raw text. -/
structure Event where
  sender_id : Int
  chat_id : Int
  raw_text : String
  deriving DecidableEq

/-- Embedding of the `commands` handler (source lines 177-193): any sender
other than the configured owner is ignored with no reply; `/pause` sets the
flag, replies, and flushes both stores (the progress flush rewrites the
chat's current checkpoint value); `/resume` clears the flag and replies;
`/status` replies with the flow state and the chat's stored checkpoint and
changes nothing. The reply text is abstracted to a plain string. -/
def commands (owner_id : Int) (s : St) (e : Event) : St × Option String :=
  if e.sender_id ≠ owner_id then (s, none)
  else
    let cmd := py_lower (py_strip e.raw_text)
    if cmd = "/pause" then
      ({ s with
         paused := true
         progressFile := save_progress s.progressFile e.chat_id
           (load_progress s.progressFile e.chat_id)
         seenFile := s.seen_ids }, some "Copier paused")
    else if cmd = "/resume" then
      ({ s with paused := false }, some "Copier resumed")
    else if cmd = "/status" then
      (s, some ("Status: paused=" ++ toString s.paused ++
        " forwarded=" ++ toString s.forwarded_count ++
        " last_id=" ++ toString (load_progress s.progressFile e.chat_id)))
    else (s, none)

/-- Run a sequence of live messages through `handle_message` in arrival
order (the live listener, source lines 172-174), threading the state,
accumulating the forwarded ids, and stopping early when a call exits the
process. `none` when some call's delivery oracle is exhausted. -/
def runItems (save_every : Nat) (s : St) :
    List (Message × List DeliveryOutcome) → Option (St × Bool × List Nat)
  | [] => some (s, false, [])
  | (m, os) :: rest =>
    match handle_message save_every s m os with
    | none => none
    | some out =>
      if out.exited then some (out.st, true, out.delivered)
      else
        match runItems save_every out.st rest with
        | none => none
        | some (s', ex, del) => some (s', ex, out.delivered ++ del)

/-- An event processed by the running client: a new message on the source
channel (driven through `handle_message`) or a control message on the
command surface. -/
inductive Ev where
  | item (m : Message) (os : List DeliveryOutcome) : Ev
  | cmd (e : Event) : Ev

/-- Run a mixed sequence of live messages and control messages, as the
client dispatches them one at a time to the two handlers. -/
def runEvents (save_every : Nat) (owner_id : Int) (s : St) : List Ev → Option St
  | [] => some s
  | Ev.item m os :: rest =>
    match handle_message save_every s m os with
    | none => none
    | some out =>
      if out.exited then some out.st
      else runEvents save_every owner_id out.st rest
  | Ev.cmd e :: rest => runEvents save_every owner_id (commands owner_id s e).1 rest

/-- Sequence of historical messages the backfill iterator hands to the
relay operation (source lines 198-206). The branch on `START_MODE` and the
stored checkpoint is the source's; the generator
`client.iter_messages(SOURCE, reverse=True, min_id=last_id)` is the
external Telegram client and is modelled, per its documented semantics,
as the sub-sequence of the channel's history with id strictly greater
than `min_id`, in the history's (ascending id) order. -/
def backfill_yield (start_mode : String) (last_id : Nat) (history : List Message) :
    List Message :=
  if start_mode = "latest" ∧ last_id = 0 then []
  else if start_mode = "oldest" ∨ 0 < last_id then
    history.filter (fun m => last_id < m.id)
  else []

/-- The `async for` body of `backfill` (source lines 206-208): each yielded
message goes through `handle_message`, then the channel checkpoint is saved
at that message's id — unless the call exited the process, in which case
the loop never resumes. -/
def backfill_loop (save_every : Nat) (src_id : Int) (s : St) :
    List (Message × List DeliveryOutcome) → Option (St × Bool × List Nat)
  | [] => some (s, false, [])
  | (m, os) :: rest =>
    match handle_message save_every s m os with
    | none => none
    | some out =>
      if out.exited then some (out.st, true, out.delivered)
      else
        match backfill_loop save_every src_id
            { out.st with progressFile := save_progress out.st.progressFile src_id m.id }
            rest with
        | none => none
        | some (s', ex, del) => some (s', ex, out.delivered ++ del)

/-- Embedding of `backfill` (source lines 195-213): load the channel's
checkpoint; with `START_MODE=latest` and no prior checkpoint, return at
once; with `START_MODE=oldest` or a prior checkpoint, drive every
historical message with id above the checkpoint through the loop, then
flush the seen set (and notify the owner). Each message's delivery oracle
is given by `orc`. -/
def backfill (save_every : Nat) (start_mode : String) (src_id : Int)
    (history : List Message) (orc : Message → List DeliveryOutcome) (s : St) :
    Option (St × Bool × List Nat) :=
  let last_id := load_progress s.progressFile src_id
  if start_mode = "latest" ∧ last_id = 0 then some (s, false, [])
  else if start_mode = "oldest" ∨ 0 < last_id then
    match backfill_loop save_every src_id s
        ((history.filter (fun m => last_id < m.id)).map (fun m => (m, orc m))) with
    | none => none
    | some (s', true, del) => some (s', true, del)
    | some (s', false, del) => some ({ s' with seenFile := s'.seen_ids }, false, del)
  else some (s, false, [])

/-- Ways the pipeline inside the supervisor's `while True` loop can
terminate one iteration (source lines 239-248). -/
inductive TermEvent where
  | systemExit0 : TermEvent
  | keyboardInterrupt : TermEvent
  | otherException : TermEvent
  deriving DecidableEq

/-- What the supervisor does next for each termination event. -/
inductive SupAction where
  | exitProcess (code : Nat) : SupAction
  | restartAfterCooldown (seconds : Nat) : SupAction
  deriving DecidableEq

/-- Embedding of the supervisor loop (source lines 239-248):
`KeyboardInterrupt` breaks out of the loop (process ends with status 0);
any other `Exception` is logged and the pipeline restarts after a 30s
sleep; `SystemExit` raised by `sys.exit(0)` is not an `Exception`
subclass, so it escapes the `except Exception` clause and terminates the
process with status 0 — the clean-stop path, not the crash path. -/
def supervisor_action : TermEvent → SupAction
  | TermEvent.systemExit0 => SupAction.exitProcess 0
  | TermEvent.keyboardInterrupt => SupAction.exitProcess 0
  | TermEvent.otherException => SupAction.restartAfterCooldown 30

/-! ### Helper lemmas -/

/-- A paused state passes through `handle_message` untouched, with no
delivery attempt and no exit. -/
theorem hm_paused (se : Nat) (s : St) (msg : Message) (os : List DeliveryOutcome)
    (h : s.paused = true) : handle_message se s msg os = some ⟨s, [], false⟩ := by
  simp [handle_message, h]

/-- A paused state passes through any run of live items untouched, with
nothing delivered. -/
theorem runItems_paused (se : Nat) (s : St)
    (items : List (Message × List DeliveryOutcome)) (h : s.paused = true) :
    runItems se s items = some (s, false, []) := by
  induction items with
  | nil => rfl
  | cons p rest ih =>
    obtain ⟨m, os⟩ := p
    simp [runItems, hm_paused se s m os h, ih]

/-- Every `handle_message` call either returns the untouched state (one of
the three early-return gates fired) or, with all gates passed, runs the
delivery loop. -/
theorem hm_cases (se : Nat) (s : St) (msg : Message) (os : List DeliveryOutcome) :
    handle_message se s msg os = some ⟨s, [], false⟩ ∨
    (s.paused = false ∧ is_audio_message (some msg) = true ∧
     dupSeen (uniqueIdOf msg) s.seen_ids = false ∧
     handle_message se s msg os = deliveryLoop se msg (uniqueIdOf msg) s os) := by
  by_cases hp : s.paused
  · exact Or.inl (hm_paused se s msg os hp)
  · by_cases ha : is_audio_message (some msg)
    · by_cases hd : dupSeen (uniqueIdOf msg) s.seen_ids
      · left; simp [handle_message, hp, ha, hd]
      · right
        refine ⟨by simpa using hp, ha, by simpa using hd, ?_⟩
        simp [handle_message, hp, ha, hd]
    · left; simp [handle_message, hp, ha]

/-- `addSeen` never adds the id 0 (the source guards the add with Python
truthiness, `if unique_id:`). -/
theorem addSeen_zero_not_mem (uid : Option Nat) (seen : List Nat)
    (h : 0 ∉ seen) : 0 ∉ addSeen uid seen := by
  cases uid with
  | none => exact h
  | some u =>
    by_cases hu : u = 0
    · simpa [addSeen, hu] using h
    · intro hmem
      simp only [addSeen] at hmem
      rw [if_pos (by simpa using hu)] at hmem
      rcases List.mem_insert_iff.mp hmem with h1 | h2
      · exact hu h1.symm
      · exact h h2

/-- The delivery loop never adds the id 0 to the in-memory seen set. -/
theorem deliveryLoop_zero_not_seen (se : Nat) (msg : Message) (uid : Option Nat)
    (s : St) (os : List DeliveryOutcome) (out : HOut)
    (h : deliveryLoop se msg uid s os = some out) (h0 : 0 ∉ s.seen_ids) :
    0 ∉ out.st.seen_ids := by
  induction os with
  | nil => simp [deliveryLoop] at h
  | cons o rest ih =>
    cases o with
    | ok =>
      simp only [deliveryLoop] at h
      split at h <;> (cases h; exact addSeen_zero_not_mem uid s.seen_ids h0)
    | floodWait w b =>
      cases b with
      | true => exact ih (by simpa only [deliveryLoop] using h)
      | false => simp only [deliveryLoop] at h; cases h; exact h0
    | otherError => simp only [deliveryLoop] at h; cases h; exact h0

/-- The in-memory seen set never acquires the id 0 through
`handle_message`: only truthy (non-zero) unique ids are ever marked. -/
theorem hm_zero_not_seen (se : Nat) (s : St) (msg : Message)
    (os : List DeliveryOutcome) (out : HOut)
    (h : handle_message se s msg os = some out) (h0 : 0 ∉ s.seen_ids) :
    0 ∉ out.st.seen_ids := by
  rcases hm_cases se s msg os with hc | ⟨_, _, _, hc⟩
  · rw [hc] at h; cases h; exact h0
  · rw [hc] at h
    exact deliveryLoop_zero_not_seen se msg (uniqueIdOf msg) s os out h h0

/-- An accepted flood wait only sleeps: re-running `handle_message` on the
remaining delivery outcomes retries the very same message against the
unchanged state. -/
theorem hm_flood_accept_retries (se : Nat) (s : St) (msg : Message) (w : Nat)
    (os : List DeliveryOutcome) :
    handle_message se s msg (DeliveryOutcome.floodWait w true :: os) =
    handle_message se s msg os := by
  by_cases hp : s.paused
  · rw [hm_paused se s msg _ hp, hm_paused se s msg os hp]
  · by_cases ha : is_audio_message (some msg)
    · by_cases hd : dupSeen (uniqueIdOf msg) s.seen_ids
      · simp [handle_message, hp, ha, hd]
      · simp [handle_message, hp, ha, hd, deliveryLoop]
    · simp [handle_message, hp, ha]

/-- The delivery loop touches the progress file at most at the message's
own channel key, and only to set it to the message's own id. -/
theorem deliveryLoop_pf (se : Nat) (msg : Message) (uid : Option Nat) (s : St)
    (os : List DeliveryOutcome) (out : HOut)
    (h : deliveryLoop se msg uid s os = some out) (c : Int) :
    out.st.progressFile c = s.progressFile c ∨
    (c = msg.chat_id ∧ out.st.progressFile c = msg.id) := by
  induction os with
  | nil => simp [deliveryLoop] at h
  | cons o rest ih =>
    cases o with
    | ok =>
      simp only [deliveryLoop] at h
      split at h
      · cases h
        by_cases hc : c = msg.chat_id
        · exact Or.inr ⟨hc, by simp [save_progress, hc]⟩
        · exact Or.inl (by simp [save_progress, hc])
      · cases h; exact Or.inl rfl
    | floodWait w b =>
      cases b with
      | true => exact ih (by simpa only [deliveryLoop] using h)
      | false =>
        simp only [deliveryLoop] at h
        cases h
        by_cases hc : c = msg.chat_id
        · exact Or.inr ⟨hc, by simp [save_progress, hc]⟩
        · exact Or.inl (by simp [save_progress, hc])
    | otherError => simp only [deliveryLoop] at h; cases h; exact Or.inl rfl

/-- `handle_message` touches the progress file at most at the message's
own channel key, and only to set it to the message's own id. -/
theorem hm_pf (se : Nat) (s : St) (msg : Message) (os : List DeliveryOutcome)
    (out : HOut) (h : handle_message se s msg os = some out) (c : Int) :
    out.st.progressFile c = s.progressFile c ∨
    (c = msg.chat_id ∧ out.st.progressFile c = msg.id) := by
  rcases hm_cases se s msg os with hc2 | ⟨_, _, _, hc2⟩
  · rw [hc2] at h; cases h; exact Or.inl rfl
  · rw [hc2] at h
    exact deliveryLoop_pf se msg (uniqueIdOf msg) s os out h c

/-- A `handle_message` call on a message at or ahead of its channel's
stored checkpoint never decreases any stored checkpoint. -/
theorem hm_pf_mono (se : Nat) (s : St) (msg : Message) (os : List DeliveryOutcome)
    (out : HOut) (h : handle_message se s msg os = some out)
    (hle : s.progressFile msg.chat_id ≤ msg.id) (c : Int) :
    s.progressFile c ≤ out.st.progressFile c := by
  rcases hm_pf se s msg os out h c with he | ⟨hc, he⟩
  · rw [he]
  · rw [he]; subst hc; exact hle

/-- Across a run of live items whose ids are at or ahead of the stored
checkpoints and non-decreasing per channel, every stored checkpoint is
monotonically non-decreasing. -/
theorem runItems_pf_mono (se : Nat) (s : St)
    (items : List (Message × List DeliveryOutcome)) (s' : St) (ex : Bool)
    (del : List Nat)
    (h1 : ∀ p ∈ items, s.progressFile (Prod.fst p).chat_id ≤ (Prod.fst p).id)
    (h2 : items.Pairwise (fun p q =>
      (Prod.fst p).chat_id = (Prod.fst q).chat_id → (Prod.fst p).id ≤ (Prod.fst q).id))
    (h : runItems se s items = some (s', ex, del)) (c : Int) :
    s.progressFile c ≤ s'.progressFile c := by
  induction items generalizing s ex del with
  | nil => simp only [runItems] at h; cases h; exact le_refl _
  | cons p rest ih =>
    obtain ⟨m, os⟩ := p
    simp only [runItems] at h
    cases hh : handle_message se s m os with
    | none => rw [hh] at h; simp only at h; cases h
    | some out =>
      rw [hh] at h
      simp only at h
      have hm1 : s.progressFile m.chat_id ≤ m.id :=
        h1 (m, os) (List.mem_cons_self _ _)
      by_cases hex : out.exited
      · rw [if_pos hex] at h
        cases h
        exact hm_pf_mono se s m os out hh hm1 c
      · rw [if_neg hex] at h
        cases hr : runItems se out.st rest with
        | none => rw [hr] at h; simp only at h; cases h
        | some trip =>
          obtain ⟨s₂, ex₂, del₂⟩ := trip
          rw [hr] at h
          simp only at h
          cases h
          have hpair := List.pairwise_cons.mp h2
          have h1' : ∀ q ∈ rest,
              out.st.progressFile (Prod.fst q).chat_id ≤ (Prod.fst q).id := by
            intro q hq
            rcases hm_pf se s m os out hh (Prod.fst q).chat_id with he | ⟨hc2, he⟩
            · rw [he]; exact h1 q (List.mem_cons_of_mem _ hq)
            · rw [he]; exact hpair.1 q hq hc2.symm
          exact le_trans (hm_pf_mono se s m os out hh hm1 c)
            (ih out.st ex del₂ h1' hpair.2 hr)

/-- Across a backfill loop over messages with non-decreasing ids at or
ahead of the stored checkpoints (including the one saved under the source
entity's key), every stored checkpoint is monotonically non-decreasing. -/
theorem backfill_loop_pf_mono (se : Nat) (src : Int) (s : St)
    (items : List (Message × List DeliveryOutcome)) (s' : St) (ex : Bool)
    (del : List Nat)
    (h1 : ∀ p ∈ items, s.progressFile (Prod.fst p).chat_id ≤ (Prod.fst p).id ∧
      s.progressFile src ≤ (Prod.fst p).id)
    (h2 : items.Pairwise (fun p q => (Prod.fst p).id ≤ (Prod.fst q).id))
    (h : backfill_loop se src s items = some (s', ex, del)) (c : Int) :
    s.progressFile c ≤ s'.progressFile c := by
  induction items generalizing s ex del with
  | nil => simp only [backfill_loop] at h; cases h; exact le_refl _
  | cons p rest ih =>
    obtain ⟨m, os⟩ := p
    simp only [backfill_loop] at h
    cases hh : handle_message se s m os with
    | none => rw [hh] at h; simp only at h; cases h
    | some out =>
      rw [hh] at h
      simp only at h
      have hm1 : s.progressFile m.chat_id ≤ m.id :=
        (h1 (m, os) (List.mem_cons_self _ _)).1
      by_cases hex : out.exited
      · rw [if_pos hex] at h
        cases h
        exact hm_pf_mono se s m os out hh hm1 c
      · rw [if_neg hex] at h
        have hsrc : out.st.progressFile src ≤ m.id := by
          rcases hm_pf se s m os out hh src with he | ⟨hc2, he⟩
          · rw [he]; exact (h1 (m, os) (List.mem_cons_self _ _)).2
          · rw [he]
        have step2 : ∀ c' : Int, out.st.progressFile c' ≤
            (save_progress out.st.progressFile src m.id) c' := by
          intro c'
          by_cases hc' : c' = src
          · subst hc'; simpa [save_progress] using hsrc
          · simp [save_progress, hc']
        cases hr : backfill_loop se src
            { out.st with progressFile := save_progress out.st.progressFile src m.id }
            rest with
        | none => rw [hr] at h; simp only at h; cases h
        | some trip =>
          obtain ⟨s₂, ex₂, del₂⟩ := trip
          rw [hr] at h
          simp only at h
          cases h
          have hpair := List.pairwise_cons.mp h2
          have h1' : ∀ q ∈ rest,
              (save_progress out.st.progressFile src m.id) (Prod.fst q).chat_id ≤
                (Prod.fst q).id ∧
              (save_progress out.st.progressFile src m.id) src ≤ (Prod.fst q).id := by
            intro q hq
            have hmq : m.id ≤ (Prod.fst q).id := hpair.1 q hq
            constructor
            · by_cases hcq : (Prod.fst q).chat_id = src
              · rw [hcq]; simpa [save_progress] using hmq
              · rw [show (save_progress out.st.progressFile src m.id) (Prod.fst q).chat_id =
                    out.st.progressFile (Prod.fst q).chat_id by simp [save_progress, hcq]]
                rcases hm_pf se s m os out hh (Prod.fst q).chat_id with he | ⟨hc2, he⟩
                · rw [he]; exact (h1 q (List.mem_cons_of_mem _ hq)).1
                · rw [he]; exact hmq
            · simpa [save_progress] using hmq
          exact le_trans (hm_pf_mono se s m os out hh hm1 c)
            (le_trans (step2 c) (ih _ ex del₂ h1' hpair.2 hr))

/-- Across a whole `backfill` run over a channel history with
non-decreasing ids at or ahead of the stored checkpoints, every stored
checkpoint is monotonically non-decreasing. -/
theorem backfill_pf_mono (se : Nat) (mode : String) (src : Int)
    (history : List Message) (orc : Message → List DeliveryOutcome) (s : St)
    (s' : St) (ex : Bool) (del : List Nat)
    (h1 : ∀ m ∈ history, s.progressFile m.chat_id ≤ m.id ∧
      s.progressFile src ≤ m.id)
    (h2 : history.Pairwise (fun a b => a.id ≤ b.id))
    (h : backfill se mode src history orc s = some (s', ex, del)) (c : Int) :
    s.progressFile c ≤ s'.progressFile c := by
  simp only [backfill] at h
  split at h
  · cases h; exact le_refl _
  · split at h
    · cases hr : backfill_loop se src s
          ((history.filter
            (fun m => decide (load_progress s.progressFile src < m.id))).map
            (fun m => (m, orc m))) with
      | none => rw [hr] at h; simp only at h; cases h
      | some trip =>
        obtain ⟨s₃, ex₃, del₃⟩ := trip
        rw [hr] at h
        have h1' : ∀ p ∈ (history.filter
            (fun m => decide (load_progress s.progressFile src < m.id))).map
            (fun m => (m, orc m)),
            s.progressFile (Prod.fst p).chat_id ≤ (Prod.fst p).id ∧
            s.progressFile src ≤ (Prod.fst p).id := by
          intro p hp
          obtain ⟨m, hm, rfl⟩ := List.mem_map.mp hp
          exact h1 m (List.mem_filter.mp hm).1
        have h2' : ((history.filter
            (fun m => decide (load_progress s.progressFile src < m.id))).map
            (fun m => (m, orc m))).Pairwise
            (fun p q => (Prod.fst p).id ≤ (Prod.fst q).id) := by
          rw [List.pairwise_map]
          exact (h2.sublist (List.filter_sublist _))
        have mono := backfill_loop_pf_mono se src s _ s₃ ex₃ del₃ h1' h2' hr c
        cases ex₃ with
        | true => simp only at h; cases h; exact mono
        | false => simp only at h; cases h; exact mono
    · cases h; exact le_refl _

/-! ### Claims -/

/-- When the backfill loop runs to completion without exiting, the stored
checkpoint under the source entity's key is the id of the last item that
was handed to the relay operation. -/
theorem backfill_loop_last_ck (se : Nat) (src : Int) (s : St)
    (items : List (Message × List DeliveryOutcome)) (m : Message)
    (os : List DeliveryOutcome) (s' : St) (del : List Nat)
    (h : backfill_loop se src s (items ++ [(m, os)]) = some (s', false, del)) :
    s'.progressFile src = m.id := by
  induction items generalizing s del with
  | nil =>
    simp only [List.nil_append, backfill_loop] at h
    cases hh : handle_message se s m os with
    | none => rw [hh] at h; simp only at h; cases h
    | some out =>
      rw [hh] at h
      simp only at h
      by_cases hex : out.exited
      · rw [if_pos hex] at h
        simp only [Option.some.injEq, Prod.mk.injEq] at h
        exact absurd h.2.1 (by simp)
      · rw [if_neg hex] at h
        cases h
        simp [save_progress]
  | cons p items ih =>
    obtain ⟨m0, os0⟩ := p
    simp only [List.cons_append, backfill_loop] at h
    cases hh : handle_message se s m0 os0 with
    | none => rw [hh] at h; simp only at h; cases h
    | some out =>
      rw [hh] at h
      simp only at h
      by_cases hex : out.exited
      · rw [if_pos hex] at h
        simp only [Option.some.injEq, Prod.mk.injEq] at h
        exact absurd h.2.1 (by simp)
      · rw [if_neg hex] at h
        split at h
        next => exact absurd h (by simp)
        next s₃ ex₃ del₃ heq =>
          cases h
          exact ih _ del₃ heq

/-- Any message on the command surface whose sender is not the configured
owner leaves the state untouched and produces no reply. -/
theorem commands_nonowner (owner : Int) (s : St) (e : Event)
    (h : e.sender_id ≠ owner) : commands owner s e = (s, none) := by
  simp [commands, h]

/-- Inserting a non-owner control message anywhere into a run of events
does not change the run's final state. -/
theorem runEvents_insert_nonowner (se : Nat) (owner : Int) (e : Event)
    (h : e.sender_id ≠ owner) (s : St) (pre post : List Ev) :
    runEvents se owner s (pre ++ Ev.cmd e :: post) =
    runEvents se owner s (pre ++ post) := by
  induction pre generalizing s with
  | nil =>
    simp only [List.nil_append, runEvents]
    rw [commands_nonowner owner s e h]
  | cons ev pre ih =>
    cases ev with
    | item m os =>
      simp only [List.cons_append, runEvents]
      cases hh : handle_message se s m os with
      | none => rfl
      | some out =>
        simp only
        by_cases hex : out.exited <;> simp [hex, ih]
    | cmd e2 =>
      simp only [List.cons_append, runEvents]
      exact ih _

/-- C7: for every message that is a voice item, the classifier
`is_audio_message` returns false — the voice check takes priority over the
audio tag, the document mime type, and the file-name extension checks. -/
theorem claim_C7_voice_never_relayable (m : Message) (h : m.voice = true) :
    is_audio_message (some m) = false := by
  simp [is_audio_message, h]

/-- Witness for C7 at a voice message that is simultaneously tagged audio
and carries a document with an audio mime type and an audio extension. -/
theorem claim_C7_witness :
    (⟨3, 5, true, true, some ⟨42, "audio/mpeg", "a.mp3"⟩⟩ : Message).voice = true ∧
    is_audio_message (some ⟨3, 5, true, true, some ⟨42, "audio/mpeg", "a.mp3"⟩⟩) = false :=
  ⟨rfl, claim_C7_voice_never_relayable ⟨3, 5, true, true, some ⟨42, "audio/mpeg", "a.mp3"⟩⟩ rfl⟩

/-- C10: a non-voice, non-audio-tagged message carrying a document whose
mime type is present but not `audio/...` is still classified as relayable
when its file name ends, case-insensitively, with one of the audio
extensions: the extension fallback overrides a conflicting declared mime
type. -/
theorem claim_C10_extension_fallback (m : Message) (d : Document)
    (hv : m.voice = false) (ha : m.audio = false) (hd : m.document = some d)
    (_hpresent : d.mime_type ≠ "")
    (hmime : py_startswith d.mime_type "audio/" = false)
    (hext : audio_exts.any (fun ext => py_endswith (py_lower d.file_name) ext) = true) :
    is_audio_message (some m) = true := by
  simp [is_audio_message, hv, ha, hd, hmime, hext]

/-- Witness for C10 at a document with mime type
`application/octet-stream` and file name `Track.FLAC`. -/
theorem claim_C10_witness :
    (⟨4, 5, false, false, some ⟨7, "application/octet-stream", "Track.FLAC"⟩⟩ : Message).voice = false ∧
    (⟨4, 5, false, false, some ⟨7, "application/octet-stream", "Track.FLAC"⟩⟩ : Message).audio = false ∧
    ("application/octet-stream" : String) ≠ "" ∧
    py_startswith "application/octet-stream" "audio/" = false ∧
    audio_exts.any (fun ext => py_endswith (py_lower "Track.FLAC") ext) = true ∧
    is_audio_message (some ⟨4, 5, false, false, some ⟨7, "application/octet-stream", "Track.FLAC"⟩⟩) = true :=
  ⟨rfl, rfl, by decide, by decide, by decide,
    claim_C10_extension_fallback ⟨4, 5, false, false, some ⟨7, "application/octet-stream", "Track.FLAC"⟩⟩
      ⟨7, "application/octet-stream", "Track.FLAC"⟩ rfl rfl rfl (by decide) (by decide) (by decide)⟩

/-- C1: a message whose document carries a content-unique id already in the
seen set is skipped: `handle_message` returns before any delivery attempt,
with the state — counter, seen set, and both persisted stores — exactly as
it was. The hypothesis `0 ∉ s.seen_ids` is the SeenSet invariant: only
truthy (non-zero) ids are ever marked seen (`hm_zero_not_seen`), so every
id that has been marked seen is non-zero. -/
theorem claim_C1_seen_id_skips (se : Nat) (s : St) (msg : Message)
    (os : List DeliveryOutcome) (d : Document)
    (hz : 0 ∉ s.seen_ids) (hdoc : msg.document = some d)
    (hseen : d.id ∈ s.seen_ids) :
    handle_message se s msg os = some ⟨s, [], false⟩ := by
  rcases hm_cases se s msg os with hc | ⟨hp, ha, hd2, hc⟩
  · exact hc
  · exfalso
    have hne : d.id ≠ 0 := fun h => hz (h ▸ hseen)
    have hdup : dupSeen (uniqueIdOf msg) s.seen_ids = true := by
      simp [dupSeen, uniqueIdOf, hdoc, hne, hseen]
    rw [hdup] at hd2
    cases hd2

/-- Witness for C1: a message carrying the already-seen id 42 is skipped
even though its delivery oracle would succeed. -/
theorem claim_C1_witness :
    0 ∉ ([42] : List Nat) ∧ (42 : Nat) ∈ ([42] : List Nat) ∧
    handle_message 10 ⟨false, 2, [42], fun _ => 0, []⟩
      ⟨7, 5, false, true, some ⟨42, "audio/mpeg", "a.mp3"⟩⟩ [DeliveryOutcome.ok] =
      some ⟨⟨false, 2, [42], fun _ => 0, []⟩, [], false⟩ :=
  ⟨by decide, by decide,
    claim_C1_seen_id_skips 10 ⟨false, 2, [42], fun _ => 0, []⟩
      ⟨7, 5, false, true, some ⟨42, "audio/mpeg", "a.mp3"⟩⟩ [DeliveryOutcome.ok]
      ⟨42, "audio/mpeg", "a.mp3"⟩ (by decide) rfl (by decide)⟩

/-- C5: every `handle_message` invocation that sees `paused = true` returns
before any delivery attempt and with no state change, and consequently a
whole run of live items under a paused flag delivers nothing and leaves
the state untouched. -/
theorem claim_C5_paused_blocks (se : Nat) (s : St) (h : s.paused = true) :
    (∀ msg os, handle_message se s msg os = some ⟨s, [], false⟩) ∧
    (∀ items, runItems se s items = some (s, false, [])) :=
  ⟨fun msg os => hm_paused se s msg os h, fun items => runItems_paused se s items h⟩

/-- Witness for C5: a paused state ignores an otherwise deliverable audio
message, both in a single call and in a run of items. -/
theorem claim_C5_witness :
    (⟨true, 0, [], fun _ => 0, []⟩ : St).paused = true ∧
    handle_message 10 ⟨true, 0, [], fun _ => 0, []⟩
      ⟨1, 5, false, true, some ⟨42, "audio/mpeg", "a.mp3"⟩⟩ [DeliveryOutcome.ok] =
      some ⟨⟨true, 0, [], fun _ => 0, []⟩, [], false⟩ ∧
    runItems 10 ⟨true, 0, [], fun _ => 0, []⟩
      [(⟨1, 5, false, true, some ⟨42, "audio/mpeg", "a.mp3"⟩⟩, [DeliveryOutcome.ok])] =
      some (⟨true, 0, [], fun _ => 0, []⟩, false, []) :=
  ⟨rfl,
    (claim_C5_paused_blocks 10 ⟨true, 0, [], fun _ => 0, []⟩ rfl).1 _ _,
    (claim_C5_paused_blocks 10 ⟨true, 0, [], fun _ => 0, []⟩ rfl).2 _⟩

/-- C8: when the delivery attempt raises any error other than a flood
wait, `handle_message` logs and abandons the single item: no retry (the
remaining oracle is never consulted), the id is not marked seen, the
counter is not incremented, no store is written, and the call returns
normally (the error does not escape). -/
theorem claim_C8_other_error_abandons (se : Nat) (s : St) (msg : Message)
    (rest : List DeliveryOutcome)
    (hp : s.paused = false) (ha : is_audio_message (some msg) = true)
    (hd : dupSeen (uniqueIdOf msg) s.seen_ids = false) :
    handle_message se s msg (DeliveryOutcome.otherError :: rest) =
      some ⟨s, [], false⟩ := by
  simp [handle_message, hp, ha, hd, deliveryLoop]

/-- Witness for C8: a transient delivery error leaves the state exactly as
it was, even with further (successful) outcomes queued behind it. -/
theorem claim_C8_witness :
    (⟨false, 3, [9], fun _ => 0, []⟩ : St).paused = false ∧
    is_audio_message (some ⟨7, 5, false, true, some ⟨42, "audio/mpeg", "a.mp3"⟩⟩) = true ∧
    dupSeen (uniqueIdOf ⟨7, 5, false, true, some ⟨42, "audio/mpeg", "a.mp3"⟩⟩) [9] = false ∧
    handle_message 10 ⟨false, 3, [9], fun _ => 0, []⟩
      ⟨7, 5, false, true, some ⟨42, "audio/mpeg", "a.mp3"⟩⟩
      [DeliveryOutcome.otherError, DeliveryOutcome.ok] =
      some ⟨⟨false, 3, [9], fun _ => 0, []⟩, [], false⟩ :=
  ⟨rfl, by decide, by decide,
    claim_C8_other_error_abandons 10 ⟨false, 3, [9], fun _ => 0, []⟩
      ⟨7, 5, false, true, some ⟨42, "audio/mpeg", "a.mp3"⟩⟩ [DeliveryOutcome.ok]
      rfl (by decide) (by decide)⟩

/-- C6: a flood-wait signal is operator-gated. Declining the wait flushes
both stores (checkpoint at the in-flight message's id, seen set as in
memory) and terminates via `sys.exit(0)` with nothing delivered by the
attempt; accepting the wait blocks and then retries delivery of the very
same message (`handle_message` continues with the remaining outcomes,
state unchanged); and `SystemExit(0)` reaches the supervisor's clean exit,
not its crash-restart path. -/
theorem claim_C6_rate_limit_gate (se : Nat) (s : St) (msg : Message) (w : Nat)
    (rest : List DeliveryOutcome)
    (hp : s.paused = false) (ha : is_audio_message (some msg) = true)
    (hd : dupSeen (uniqueIdOf msg) s.seen_ids = false) :
    handle_message se s msg (DeliveryOutcome.floodWait w false :: rest) =
      some ⟨{ s with
              progressFile := save_progress s.progressFile msg.chat_id msg.id
              seenFile := s.seen_ids }, [], true⟩ ∧
    (∀ (s2 : St) (os : List DeliveryOutcome),
      handle_message se s2 msg (DeliveryOutcome.floodWait w true :: os) =
      handle_message se s2 msg os) ∧
    supervisor_action TermEvent.systemExit0 = SupAction.exitProcess 0 := by
  refine ⟨?_, fun s2 os => hm_flood_accept_retries se s2 msg w os, rfl⟩
  simp [handle_message, hp, ha, hd, deliveryLoop]

/-- Counterexample to C2 as stated: declining the flood wait on message 7
persists checkpoint 7 — `save_progress(msg.chat_id, msg.id)` on the
decline path — although message 7 was neither forwarded nor skipped
(nothing delivered, counter unchanged, nothing marked seen), and a
backfill resume from that checkpoint yields nothing: the item at the
boundary is lost, not merely re-delivered. -/
theorem claim_C2_counterexample :
    (handle_message 10 ⟨false, 0, [], fun _ => 0, []⟩
        ⟨7, 5, false, true, some ⟨42, "audio/mpeg", "a.mp3"⟩⟩
        [DeliveryOutcome.floodWait 60 false]).map
      (fun o => (o.st.progressFile 5, o.st.forwarded_count, o.st.seenFile,
        o.delivered, o.exited)) = some (7, 0, [], [], true) ∧
    backfill_yield "oldest" 7 [⟨7, 5, false, true, some ⟨42, "audio/mpeg", "a.mp3"⟩⟩] = [] :=
  ⟨by decide, by decide⟩

/-- C2 (amended): for every channel the persisted checkpoint is
monotonically non-decreasing across any sequence of processed items whose
ids arrive in the channel's order (non-decreasing, at or ahead of the
stored checkpoints) — both for a run of live items and for a whole
backfill run. The original claim's second half is false: the checkpoint is
not only advanced after an item is fully processed — on a declined
rate-limit wait it is persisted at the failing, undelivered item's id
before the clean exit (see the counterexample above), so the boundary
item can be lost on resume, not only re-delivered. -/
theorem claim_C2_checkpoint_monotone :
    (∀ (se : Nat) (s : St) (items : List (Message × List DeliveryOutcome))
       (s' : St) (ex : Bool) (del : List Nat),
      (∀ p ∈ items, s.progressFile (Prod.fst p).chat_id ≤ (Prod.fst p).id) →
      items.Pairwise (fun p q =>
        (Prod.fst p).chat_id = (Prod.fst q).chat_id →
        (Prod.fst p).id ≤ (Prod.fst q).id) →
      runItems se s items = some (s', ex, del) →
      ∀ c, s.progressFile c ≤ s'.progressFile c) ∧
    (∀ (se : Nat) (mode : String) (src : Int) (history : List Message)
       (orc : Message → List DeliveryOutcome) (s s' : St) (ex : Bool)
       (del : List Nat),
      (∀ m ∈ history, s.progressFile m.chat_id ≤ m.id ∧
        s.progressFile src ≤ m.id) →
      history.Pairwise (fun a b => a.id ≤ b.id) →
      backfill se mode src history orc s = some (s', ex, del) →
      ∀ c, s.progressFile c ≤ s'.progressFile c) :=
  ⟨fun se s items s' ex del h1 h2 h c =>
    runItems_pf_mono se s items s' ex del h1 h2 h c,
   fun se mode src history orc s s' ex del h1 h2 h c =>
    backfill_pf_mono se mode src history orc s s' ex del h1 h2 h c⟩

/-- Witness for C2 (amended): one forwarded item (batch size 1) advances
the single stored checkpoint from 0 to 7, never decreasing it, both on
the live path and through a full backfill run. -/
theorem claim_C2_witness :
    runItems 1 ⟨false, 0, [], fun _ => 0, []⟩
      [(⟨7, 5, false, true, some ⟨42, "audio/mpeg", "a.mp3"⟩⟩, [DeliveryOutcome.ok])] =
      some (⟨false, 1, [42], save_progress (fun _ => 0) 5 7, [42]⟩, false, [7]) ∧
    (⟨false, 0, [], fun _ => 0, []⟩ : St).progressFile 5 ≤
      (⟨false, 1, [42], save_progress (fun _ => 0) 5 7, [42]⟩ : St).progressFile 5 ∧
    backfill 1 "oldest" 5 [⟨7, 5, false, true, some ⟨42, "audio/mpeg", "a.mp3"⟩⟩]
      (fun _ => [DeliveryOutcome.ok]) ⟨false, 0, [], fun _ => 0, []⟩ =
      some (⟨false, 1, [42],
        save_progress (save_progress (fun _ => 0) 5 7) 5 7, [42]⟩, false, [7]) ∧
    (⟨false, 0, [], fun _ => 0, []⟩ : St).progressFile 5 ≤
      (⟨false, 1, [42],
        save_progress (save_progress (fun _ => 0) 5 7) 5 7, [42]⟩ : St).progressFile 5 :=
  ⟨rfl,
   claim_C2_checkpoint_monotone.1 1 ⟨false, 0, [], fun _ => 0, []⟩
     [(⟨7, 5, false, true, some ⟨42, "audio/mpeg", "a.mp3"⟩⟩, [DeliveryOutcome.ok])]
     ⟨false, 1, [42], save_progress (fun _ => 0) 5 7, [42]⟩ false [7]
     (by decide) (by simp) rfl 5,
   rfl,
   claim_C2_checkpoint_monotone.2 1 "oldest" 5
     [⟨7, 5, false, true, some ⟨42, "audio/mpeg", "a.mp3"⟩⟩]
     (fun _ => [DeliveryOutcome.ok]) ⟨false, 0, [], fun _ => 0, []⟩
     ⟨false, 1, [42], save_progress (save_progress (fun _ => 0) 5 7) 5 7, [42]⟩
     false [7] (by decide) (by simp) rfl 5⟩

/-- C3: the backfill iterator's output is determined by start mode and
checkpoint. With `START_MODE=latest` and a zero checkpoint the run returns
at once, yielding nothing and changing nothing; with `START_MODE=oldest`
or a positive checkpoint `K` it yields exactly the historical items with
id above `K`, in increasing id order whenever the history is so ordered;
and after each yielded item is handed to the relay operation the channel
checkpoint is saved at that item's id — so a loop completing without an
exit ends with the checkpoint at the last yielded item's id. -/
theorem claim_C3_backfill_iterator :
    (∀ (se : Nat) (mode : String) (src : Int) (history : List Message)
       (orc : Message → List DeliveryOutcome) (s : St),
      mode = "latest" → load_progress s.progressFile src = 0 →
      backfill se mode src history orc s = some (s, false, []) ∧
      backfill_yield mode (load_progress s.progressFile src) history = []) ∧
    (∀ (mode : String) (K : Nat) (history : List Message),
      mode = "oldest" ∨ 0 < K →
      backfill_yield mode K history = history.filter (fun m => K < m.id) ∧
      (history.Pairwise (fun a b => a.id < b.id) →
        (backfill_yield mode K history).Pairwise (fun a b => a.id < b.id))) ∧
    (∀ (se : Nat) (src : Int) (s : St)
       (items : List (Message × List DeliveryOutcome)) (m : Message)
       (os : List DeliveryOutcome) (s' : St) (del : List Nat),
      backfill_loop se src s (items ++ [(m, os)]) = some (s', false, del) →
      s'.progressFile src = m.id) := by
  refine ⟨?_, ?_, ?_⟩
  · intro se mode src history orc s hmode h0
    constructor
    · simp only [backfill]
      rw [if_pos ⟨hmode, h0⟩]
    · rw [h0, hmode]
      simp [backfill_yield]
  · intro mode K history h
    have hne : ¬(mode = "latest" ∧ K = 0) := by
      rintro ⟨hm, hk⟩
      rcases h with h | h
      · rw [hm] at h; exact absurd h (by decide)
      · rw [hk] at h; exact absurd h (by decide)
    have hyield : backfill_yield mode K history =
        history.filter (fun m => K < m.id) := by
      simp only [backfill_yield]
      rw [if_neg hne, if_pos h]
    refine ⟨hyield, fun hs => ?_⟩
    rw [hyield]
    exact hs.sublist (List.filter_sublist _)
  · intro se src s items m os s' del h
    exact backfill_loop_last_ck se src s items m os s' del h

/-- Witness for C3: with `latest` and checkpoint 0 nothing is yielded;
with `oldest` and checkpoint 1 the yield is exactly the filtered history
in order; a completed loop ends with the checkpoint at the last item's
id 9. -/
theorem claim_C3_witness :
    (("latest" : String) = "latest") ∧
    load_progress (⟨false, 0, [], fun _ => 0, []⟩ : St).progressFile 5 = 0 ∧
    backfill 10 "latest" 5 [⟨1, 5, false, true, some ⟨42, "audio/mpeg", "a.mp3"⟩⟩]
      (fun _ => [DeliveryOutcome.ok]) ⟨false, 0, [], fun _ => 0, []⟩ =
      some (⟨false, 0, [], fun _ => 0, []⟩, false, []) ∧
    backfill_yield "oldest" 1
      [⟨1, 5, false, true, some ⟨42, "audio/mpeg", "a.mp3"⟩⟩,
       ⟨9, 5, false, true, some ⟨43, "audio/mpeg", "b.mp3"⟩⟩] =
      ([⟨1, 5, false, true, some ⟨42, "audio/mpeg", "a.mp3"⟩⟩,
        ⟨9, 5, false, true, some ⟨43, "audio/mpeg", "b.mp3"⟩⟩] : List Message).filter
        (fun m => 1 < m.id) ∧
    backfill_loop 10 5 ⟨false, 0, [], fun _ => 0, []⟩
      [(⟨9, 5, false, true, some ⟨43, "audio/mpeg", "b.mp3"⟩⟩, [DeliveryOutcome.ok])] =
      some (⟨false, 1, [43], save_progress (fun _ => 0) 5 9, []⟩, false, [9]) ∧
    (⟨false, 1, [43], save_progress (fun _ => 0) 5 9, []⟩ : St).progressFile 5 = 9 :=
  ⟨rfl, rfl,
   ((claim_C3_backfill_iterator.1 10 "latest" 5
      [⟨1, 5, false, true, some ⟨42, "audio/mpeg", "a.mp3"⟩⟩]
      (fun _ => [DeliveryOutcome.ok]) ⟨false, 0, [], fun _ => 0, []⟩ rfl rfl).1),
   ((claim_C3_backfill_iterator.2.1 "oldest" 1
      [⟨1, 5, false, true, some ⟨42, "audio/mpeg", "a.mp3"⟩⟩,
       ⟨9, 5, false, true, some ⟨43, "audio/mpeg", "b.mp3"⟩⟩] (Or.inl rfl)).1),
   rfl,
   claim_C3_backfill_iterator.2.2 10 5 ⟨false, 0, [], fun _ => 0, []⟩ []
     ⟨9, 5, false, true, some ⟨43, "audio/mpeg", "b.mp3"⟩⟩ [DeliveryOutcome.ok]
     ⟨false, 1, [43], save_progress (fun _ => 0) 5 9, []⟩ [9] rfl⟩

/-- C4 fails on the code (the claim matches the spec's stated intent, the
code contradicts it): with the pause flag set, the backfill loop still
iterates and still runs `save_progress(src.id, message.id)` after each
skipped item. Here a paused backfill over a single never-delivered audio
message advances the checkpoint to 1 while delivering nothing, and a
backfill resumed after unpausing yields nothing above checkpoint 1 — the
item is permanently skipped, not processed on resume. -/
theorem claim_C4_paused_backfill_advances_checkpoint :
    is_audio_message (some ⟨1, 5, false, true, some ⟨99, "audio/mpeg", "x.mp3"⟩⟩) = true ∧
    (backfill 10 "oldest" 5 [⟨1, 5, false, true, some ⟨99, "audio/mpeg", "x.mp3"⟩⟩]
        (fun _ => [DeliveryOutcome.ok]) ⟨true, 0, [], fun _ => 0, []⟩).map
      (fun r => ((Prod.fst r).progressFile 5, (Prod.fst r).forwarded_count,
        (Prod.fst r).seen_ids, Prod.fst (Prod.snd r), Prod.snd (Prod.snd r))) =
      some (1, 0, [], false, []) ∧
    backfill_yield "oldest" 1 [⟨1, 5, false, true, some ⟨99, "audio/mpeg", "x.mp3"⟩⟩] = [] :=
  ⟨by decide, by decide, by decide⟩

/-- C9: a control message from any sender other than the configured owner
is ignored — no reply and no state change — so two runs differing only in
such a message end in the same state (paused flag, counter, and persisted
stores all equal). -/
theorem claim_C9_nonowner_commands_ignored (owner : Int) (e : Event)
    (h : e.sender_id ≠ owner) :
    (∀ s : St, commands owner s e = (s, none)) ∧
    (∀ (se : Nat) (s : St) (pre post : List Ev),
      runEvents se owner s (pre ++ Ev.cmd e :: post) =
      runEvents se owner s (pre ++ post)) :=
  ⟨fun s => commands_nonowner owner s e h,
   fun se s pre post => runEvents_insert_nonowner se owner e h s pre post⟩

/-- Witness for C9: a `/pause` from sender 8 (owner is 9) is ignored, and
inserting it between two live items leaves the run's outcome unchanged. -/
theorem claim_C9_witness :
    ((8 : Int) ≠ 9) ∧
    commands 9 ⟨false, 3, [42], fun _ => 0, []⟩ ⟨8, 2, "/pause"⟩ =
      (⟨false, 3, [42], fun _ => 0, []⟩, none) ∧
    runEvents 10 9 ⟨false, 0, [], fun _ => 0, []⟩
      ([Ev.item ⟨1, 5, false, true, some ⟨42, "audio/mpeg", "a.mp3"⟩⟩ [DeliveryOutcome.ok]] ++
        Ev.cmd ⟨8, 2, "/pause"⟩ ::
        [Ev.item ⟨9, 5, false, true, some ⟨43, "audio/mpeg", "b.mp3"⟩⟩ [DeliveryOutcome.ok]]) =
    runEvents 10 9 ⟨false, 0, [], fun _ => 0, []⟩
      ([Ev.item ⟨1, 5, false, true, some ⟨42, "audio/mpeg", "a.mp3"⟩⟩ [DeliveryOutcome.ok]] ++
        [Ev.item ⟨9, 5, false, true, some ⟨43, "audio/mpeg", "b.mp3"⟩⟩ [DeliveryOutcome.ok]]) :=
  ⟨by decide,
   (claim_C9_nonowner_commands_ignored 9 ⟨8, 2, "/pause"⟩ (by decide)).1
     ⟨false, 3, [42], fun _ => 0, []⟩,
   (claim_C9_nonowner_commands_ignored 9 ⟨8, 2, "/pause"⟩ (by decide)).2 10
     ⟨false, 0, [], fun _ => 0, []⟩
     [Ev.item ⟨1, 5, false, true, some ⟨42, "audio/mpeg", "a.mp3"⟩⟩ [DeliveryOutcome.ok]]
     [Ev.item ⟨9, 5, false, true, some ⟨43, "audio/mpeg", "b.mp3"⟩⟩ [DeliveryOutcome.ok]]⟩

/-- Witness for C6: declining a 60-second flood wait on message 7 persists
checkpoint 7 and the seen set and exits cleanly. -/
theorem claim_C6_witness :
    (⟨false, 0, [], fun _ => 0, []⟩ : St).paused = false ∧
    is_audio_message (some ⟨7, 5, false, true, some ⟨42, "audio/mpeg", "a.mp3"⟩⟩) = true ∧
    dupSeen (uniqueIdOf ⟨7, 5, false, true, some ⟨42, "audio/mpeg", "a.mp3"⟩⟩) [] = false ∧
    handle_message 10 ⟨false, 0, [], fun _ => 0, []⟩
      ⟨7, 5, false, true, some ⟨42, "audio/mpeg", "a.mp3"⟩⟩
      [DeliveryOutcome.floodWait 60 false] =
      some ⟨⟨false, 0, [], save_progress (fun _ => 0) 5 7, []⟩, [], true⟩ :=
  ⟨rfl, by decide, by decide,
    (claim_C6_rate_limit_gate 10 ⟨false, 0, [], fun _ => 0, []⟩
      ⟨7, 5, false, true, some ⟨42, "audio/mpeg", "a.mp3"⟩⟩ 60 []
      rfl (by decide) (by decide)).1⟩

end TGMusic
